import Mathlib

/-!
Verification of the media-sync synchronization engine.

This file gives a shallow embedding of the core of the repository:
the per-track facade (class MediaElementWrapper in
media-element-wrapper.ts) and the coordinator (class MediaSync in
media-sync.ts).  Times, durations and playback rates are modelled as
rationals; the readyState levels 0..4 are naturals.  The browser event
loop is modelled by splitting every operation that schedules a
setTimeout callback into its synchronous part and a separate
`...Timeout` function for the deferred callback.  Each operation
returns the updated coordinator state together with the list of
externally visible actions it performed (wrapper method invocations
and group-level event dispatches), in program order.
-/

set_option maxRecDepth 4000

/-- The semantic event names of the engine (MediaEvent in constants.ts,
plus the ended event used by media-sync.ts). -/
inductive EventName where
  | play
  | pause
  | seeking
  | ratechange
  | emptied
  | loadedmetadata
  | loadeddata
  | canplay
  | canplaythrough
  | waiting
  | ended
deriving DecidableEq, Repr

/-- Externally visible actions performed by the coordinator:
invocations of wrapper methods and group-level event dispatches. -/
inductive Effect where
  /-- wrapper.play() was invoked on the track with this id -/
  | playCall (id : ℕ)
  /-- wrapper.pause() was invoked on the track with this id -/
  | pauseCall (id : ℕ)
  /-- the wrapper currentTime setter was invoked with argument t -/
  | setTime (id : ℕ) (t : ℚ)
  /-- the wrapper playbackRate setter was invoked with argument r -/
  | setRate (id : ℕ) (r : ℚ)
  /-- a group-level event was dispatched from the MediaSync element -/
  | dispatch (name : EventName)
deriving DecidableEq, Repr

/-- State of one track facade (class MediaElementWrapper).  The
currentTime, duration, paused, playbackRate and readyState fields hold
the state of the underlying native media element; the emit* booleans
are the per-event-type suppression map (emitEvents). -/
structure MediaElementWrapper where
  id : ℕ
  isMain : Bool
  currentTime : ℚ
  duration : ℚ
  paused : Bool
  playbackRate : ℚ
  readyState : ℕ
  emitPause : Bool := true
  emitPlay : Bool := true
  emitRatechange : Bool := true
  emitSeeking : Bool := true
deriving DecidableEq, Repr

namespace MediaElementWrapper

/-- The ended state of a track: |currentTime - duration| < 0.1
(method isEnded of MediaElementWrapper). -/
def ended (w : MediaElementWrapper) : Bool :=
  decide (|w.currentTime - w.duration| < 1/10)

/-- The currentTime setter of the wrapper: a target at or past the
duration is clamped to max(0, duration - 0.05) before being written to
the element, to avoid triggering a spurious ended transition. -/
def setCurrentTime (w : MediaElementWrapper) (time : ℚ) : MediaElementWrapper :=
  if time ≥ w.duration then
    { w with currentTime := max 0 (w.duration - 1/20) }
  else
    { w with currentTime := time }

/-- The playbackRate setter of the wrapper: writes the rate through to
the element. -/
def setPlaybackRate (w : MediaElementWrapper) (rate : ℚ) : MediaElementWrapper :=
  { w with playbackRate := rate }

/-- wrapper.play(): starts the element; on success the element is no
longer paused.  Rejections are caught and logged in the source, so the
model keeps the successful path. -/
def play (w : MediaElementWrapper) : MediaElementWrapper :=
  { w with paused := false }

/-- wrapper.pause(): pauses the element. -/
def pause (w : MediaElementWrapper) : MediaElementWrapper :=
  { w with paused := true }

/-- suppressEventType: sets emitEvents[name] = false.  Only the four
suppressible event types are read by the listeners. -/
def suppressEventType (w : MediaElementWrapper) (name : EventName) : MediaElementWrapper :=
  match name with
  | .pause => { w with emitPause := false }
  | .play => { w with emitPlay := false }
  | .ratechange => { w with emitRatechange := false }
  | .seeking => { w with emitSeeking := false }
  | _ => w

/-- enableEventType: sets emitEvents[name] = true. -/
def enableEventType (w : MediaElementWrapper) (name : EventName) : MediaElementWrapper :=
  match name with
  | .pause => { w with emitPause := true }
  | .play => { w with emitPlay := true }
  | .ratechange => { w with emitRatechange := true }
  | .seeking => { w with emitSeeking := true }
  | _ => w

/-- The semantic event re-emitted by the facade when the native play
event fires on the element: emitted only while emitEvents[play] holds. -/
def nativePlayEmission (w : MediaElementWrapper) : Option EventName :=
  if w.emitPlay then some .play else none

/-- The semantic event re-emitted by the facade when the native pause
event fires on the element: emitted only while emitEvents[pause] holds. -/
def nativePauseEmission (w : MediaElementWrapper) : Option EventName :=
  if w.emitPause then some .pause else none

end MediaElementWrapper

/-- Per-track entry of a drift sample (the DriftInfo union type). -/
inductive DriftInfo where
  | drifting (id : ℕ) (delta : ℤ)
  | endedTrack (id : ℕ)
deriving DecidableEq, Repr

/-- Per-track entry of a drift correction record. -/
structure CorrectionInfo where
  id : ℕ
  correcting : Bool
deriving DecidableEq, Repr

/-- A record in the driftSamples list (DriftSample | DriftCorrection). -/
inductive DriftRecord where
  | sample (currentTime : ℚ) (drifts : List DriftInfo)
  | correction (currentTime : ℚ) (corrections : List CorrectionInfo)
deriving DecidableEq, Repr

/-- Threshold in milliseconds: only correct drift exceeding this value.
A higher threshold is used for Safari. -/
def DRIFT_CORRECTION_THRESHOLD (isSafari : Bool) : ℤ :=
  if isSafari then 150 else 30

/-- Debounce delay for seeking events, in milliseconds (constants.ts). -/
def SEEK_DEBOUNCE_DELAY : ℚ := 10

/-- State of the MediaSync coordinator element.  The two boolean
drift* fields model whether the corresponding interval timer is
currently installed (intervalId different from null). -/
structure MediaSync where
  mediaElements : List MediaElementWrapper
  isSyncingSeeking : Bool := false
  lastReadyState : ℕ := 0
  isWaitingForData : Bool := false
  driftSampling : Bool := false
  driftCorrection : Bool := false
  disabled : Bool := false
  driftSamples : List DriftRecord := []
  driftCorrectionEnabled : Bool := true
deriving DecidableEq, Repr

namespace MediaSync

/-- The main media element: the wrapper flagged isMain, or the first
wrapper when none is flagged.  none exactly when no track is registered. -/
def mainElement (s : MediaSync) : Option MediaElementWrapper :=
  (s.mediaElements.find? (fun m => m.isMain)).orElse (fun _ => s.mediaElements.head?)

/-- All media wrappers except the given one (otherTracks; the source
compares wrappers by object identity, modelled here by the id field). -/
def otherTracks (s : MediaSync) (w : MediaElementWrapper) : List MediaElementWrapper :=
  s.mediaElements.filter (fun m => m.id ≠ w.id)

/-- The currentTime getter: the current time of the main element, or 0
when no media elements are registered. -/
def currentTime (s : MediaSync) : ℚ :=
  match s.mainElement with
  | none => 0
  | some m => m.currentTime

/-- The readyState getter: the minimum readyState over all media
elements, or 0 when none are registered. -/
def readyState (s : MediaSync) : ℕ :=
  match s.mediaElements.map (fun m => m.readyState) with
  | [] => 0
  | r :: rs => rs.foldl min r

/-- The paused getter: the paused state of the main element, or true
when no media elements are registered. -/
def paused (s : MediaSync) : Bool :=
  match s.mainElement with
  | none => true
  | some m => m.paused

/-- The playbackRate getter: the rate of the main element, or 1.0 when
no media elements are registered. -/
def playbackRate (s : MediaSync) : ℚ :=
  match s.mainElement with
  | none => 1
  | some m => m.playbackRate

/-- The duration getter: the duration of the main element, or 0 when
no media elements are registered. -/
def duration (s : MediaSync) : ℚ :=
  match s.mainElement with
  | none => 0
  | some m => m.duration

/-- The ended getter: the ended state of the main element, or false
when no media elements are registered. -/
def ended (s : MediaSync) : Bool :=
  match s.mainElement with
  | none => false
  | some m => m.ended

/-- suppressEvents: suppress the given event type on every wrapper. -/
def suppressEvents (s : MediaSync) (name : EventName) : MediaSync :=
  { s with mediaElements := s.mediaElements.map (fun w => w.suppressEventType name) }

/-- enableEvents: enable the given event type on every wrapper. -/
def enableEvents (s : MediaSync) (name : EventName) : MediaSync :=
  { s with mediaElements := s.mediaElements.map (fun w => w.enableEventType name) }

/-- startDriftSampling: installs the sampling interval unless disabled
or already sampling. -/
def startDriftSampling (s : MediaSync) : MediaSync :=
  if s.disabled || s.driftSampling then s else { s with driftSampling := true }

/-- stopDriftSampling: clears the sampling interval. -/
def stopDriftSampling (s : MediaSync) : MediaSync :=
  { s with driftSampling := false }

/-- startDriftCorrection: installs the correction interval unless
disabled, already running, or correction is disabled. -/
def startDriftCorrection (s : MediaSync) : MediaSync :=
  if s.disabled || s.driftCorrection || !s.driftCorrectionEnabled then s
  else { s with driftCorrection := true }

/-- stopDriftCorrection: clears the correction interval. -/
def stopDriftCorrection (s : MediaSync) : MediaSync :=
  { s with driftCorrection := false }

/-- seekTracks: the synchronous body of the seek-sync operation, for a
target set of wrappers given by their ids.  Stops the drift engine,
suppresses seeking everywhere, raises the in-flight flag and writes the
time through each target wrapper setter. -/
def seekTracks (s : MediaSync) (targetIds : List ℕ) (time : ℚ) : MediaSync × List Effect :=
  if targetIds.isEmpty then (s, [])
  else if s.disabled then (s, [])
  else
    let s1 := (s.stopDriftSampling).stopDriftCorrection
    let s2 := s1.suppressEvents .seeking
    let s3 := { s2 with isSyncingSeeking := true }
    let s4 := { s3 with
      mediaElements := s3.mediaElements.map (fun m =>
        if targetIds.contains m.id then m.setCurrentTime time else m) }
    (s4, targetIds.map (fun i => Effect.setTime i time))

/-- The deferred callback scheduled by seekTracks (after
SEEK_DEBOUNCE_DELAY * 2): clears the in-flight flag, re-enables seeking
and restarts the drift engine when every element is playing. -/
def seekTracksTimeout (s : MediaSync) : MediaSync :=
  let s1 := { s with isSyncingSeeking := false }
  let s2 := s1.enableEvents .seeking
  if s2.mediaElements.all (fun m => !m.paused) then
    (s2.startDriftSampling).startDriftCorrection
  else s2

/-- playTracks: gated on the aggregate readyState reaching
HAVE_ENOUGH_DATA (4); suppresses play everywhere, plays each target and
starts the drift engine when every element reports not paused. -/
def playTracks (s : MediaSync) (targetIds : List ℕ) : MediaSync × List Effect :=
  if targetIds.isEmpty then (s, [])
  else if s.readyState < 4 then (s, [])
  else
    let s1 := s.suppressEvents EventName.play
    let s2 := { s1 with
      mediaElements := s1.mediaElements.map (fun (m : MediaElementWrapper) =>
        if targetIds.contains m.id then m.play else m) }
    let s3 :=
      if s2.mediaElements.all (fun m => !m.paused) then
        (s2.startDriftSampling).startDriftCorrection
      else s2
    (s3, targetIds.map (fun i => Effect.playCall i))

/-- The deferred callback scheduled by playTracks: re-enables play. -/
def playTracksTimeout (s : MediaSync) : MediaSync :=
  s.enableEvents .play

/-- pauseTracks: suppresses pause everywhere, pauses each target and
stops the drift engine. -/
def pauseTracks (s : MediaSync) (targetIds : List ℕ) : MediaSync × List Effect :=
  if targetIds.isEmpty then (s, [])
  else
    let s1 := s.suppressEvents EventName.pause
    let s2 := { s1 with
      mediaElements := s1.mediaElements.map (fun (m : MediaElementWrapper) =>
        if targetIds.contains m.id then m.pause else m) }
    let s3 := (s2.stopDriftSampling).stopDriftCorrection
    (s3, targetIds.map (fun i => Effect.pauseCall i))

/-- The deferred callback scheduled by pauseTracks: re-enables pause. -/
def pauseTracksTimeout (s : MediaSync) : MediaSync :=
  s.enableEvents .pause

/-- setPlaybackRateTracks: suppresses ratechange everywhere and writes
the rate through each target wrapper setter. -/
def setPlaybackRateTracks (s : MediaSync) (targetIds : List ℕ) (rate : ℚ) :
    MediaSync × List Effect :=
  if targetIds.isEmpty then (s, [])
  else if s.disabled then (s, [])
  else
    let s1 := s.suppressEvents .ratechange
    let s2 := { s1 with
      mediaElements := s1.mediaElements.map (fun m =>
        if targetIds.contains m.id then m.setPlaybackRate rate else m) }
    (s2, targetIds.map (fun i => Effect.setRate i rate))

/-- The deferred callback scheduled by setPlaybackRateTracks:
re-enables ratechange. -/
def setPlaybackRateTracksTimeout (s : MediaSync) : MediaSync :=
  s.enableEvents .ratechange

/-- The ids of all registered wrappers, in registration order. -/
def allIds (s : MediaSync) : List ℕ :=
  s.mediaElements.map (fun m => m.id)

/-- The public play() method: a no-op while disabled, otherwise plays
every track. -/
def play (s : MediaSync) : MediaSync × List Effect :=
  if s.disabled then (s, []) else s.playTracks s.allIds

/-- The public pause() method: a no-op while disabled, otherwise
pauses every track. -/
def pause (s : MediaSync) : MediaSync × List Effect :=
  if s.disabled then (s, []) else s.pauseTracks s.allIds

/-- The public currentTime setter: a no-op while disabled, otherwise
seeks every track. -/
def setCurrentTime (s : MediaSync) (time : ℚ) : MediaSync × List Effect :=
  if s.disabled then (s, []) else s.seekTracks s.allIds time

/-- The public playbackRate setter: a no-op while disabled, otherwise
sets the rate on every track. -/
def setPlaybackRate (s : MediaSync) (rate : ℚ) : MediaSync × List Effect :=
  if s.disabled then (s, []) else s.setPlaybackRateTracks s.allIds rate

/-- The seeking listener installed on each wrapper by
setupMediaElements: drops the event while disabled or while a seek sync
is in flight; otherwise forwards a group-level seeking event and seeks
all other tracks to the carried time. -/
def onSeeking (s : MediaSync) (w : MediaElementWrapper) (seekTime : ℚ) :
    MediaSync × List Effect :=
  if s.disabled then (s, [])
  else if s.isSyncingSeeking then (s, [])
  else
    let r := s.seekTracks ((s.otherTracks w).map (fun m => m.id)) seekTime
    (r.1, Effect.dispatch .seeking :: r.2)

/-- The play listener installed on each wrapper: while the aggregate
readyState is below HAVE_ENOUGH_DATA the source wrapper is paused (with
pause suppressed); otherwise a group-level play event is forwarded and
all other tracks are played. -/
def onPlay (s : MediaSync) (w : MediaElementWrapper) : MediaSync × List Effect :=
  if s.disabled then (s, [])
  else if s.readyState < 4 then
    let s1 := s.suppressEvents EventName.pause
    let s2 := { s1 with
      mediaElements := s1.mediaElements.map (fun (m : MediaElementWrapper) =>
        if m.id = w.id then m.pause else m) }
    (s2, [Effect.pauseCall w.id])
  else
    let r := s.playTracks ((s.otherTracks w).map (fun m => m.id))
    (r.1, Effect.dispatch .play :: r.2)

/-- The deferred callback of the low-readiness branch of the play
listener: re-enables pause. -/
def onPlayLowReadinessTimeout (s : MediaSync) : MediaSync :=
  s.enableEvents .pause

/-- The pause listener installed on each wrapper: an ended track does
not propagate its pause; otherwise a group-level pause event is
forwarded and all other tracks are paused. -/
def onPause (s : MediaSync) (w : MediaElementWrapper) : MediaSync × List Effect :=
  if s.disabled then (s, [])
  else if w.ended then (s, [])
  else
    let r := s.pauseTracks ((s.otherTracks w).map (fun m => m.id))
    (r.1, Effect.dispatch .pause :: r.2)

/-- The ratechange listener installed on each wrapper: forwards a
group-level ratechange event and mirrors the rate to all other tracks. -/
def onRatechange (s : MediaSync) (w : MediaElementWrapper) (rate : ℚ) :
    MediaSync × List Effect :=
  if s.disabled then (s, [])
  else
    let r := s.setPlaybackRateTracks ((s.otherTracks w).map (fun m => m.id)) rate
    (r.1, Effect.dispatch .ratechange :: r.2)

/-- The waiting listener installed on each wrapper: marks the group as
waiting for data, pauses the whole group through the public pause()
method — which is a no-op while disabled — and forwards a group-level
waiting event.  The source has no disabled check on this listener. -/
def onWaiting (s : MediaSync) : MediaSync × List Effect :=
  let s1 := { s with isWaitingForData := true }
  let r := s1.pause
  (r.1, r.2 ++ [Effect.dispatch .waiting])

/-- The ended listener installed on each wrapper: only the main track
acts — every other track is paused when not disabled, and a group-level
ended event is forwarded regardless of the disabled flag; a non-main
track ending early does nothing. -/
def onEnded (s : MediaSync) (w : MediaElementWrapper) : MediaSync × List Effect :=
  if w.isMain then
    if s.disabled then (s, [Effect.dispatch .ended])
    else
      let r := s.pauseTracks ((s.otherTracks w).map (fun m => m.id))
      (r.1, r.2 ++ [Effect.dispatch .ended])
  else (s, [])

/-- handleReadyStateChange: recomputes the aggregate readyState and,
when it moved, records it and dispatches the group-level event of the
new level; on reaching HAVE_ENOUGH_DATA while waiting for data and not
paused, playback is resumed and the waiting flag cleared. -/
def handleReadyStateChange (s : MediaSync) : MediaSync × List Effect :=
  let current := s.readyState
  if current ≠ s.lastReadyState then
    let s1 := { s with lastReadyState := current }
    if current = 0 then (s1, [Effect.dispatch .emptied])
    else if current = 1 then (s1, [Effect.dispatch .loadedmetadata])
    else if current = 2 then (s1, [Effect.dispatch .loadeddata])
    else if current = 3 then (s1, [Effect.dispatch .canplay])
    else if current = 4 then
      if s1.isWaitingForData && !s1.disabled then
        if !s1.paused then
          let r := s1.play
          ({ r.1 with isWaitingForData := false },
            Effect.dispatch .canplaythrough :: r.2)
        else ({ s1 with isWaitingForData := false }, [Effect.dispatch .canplaythrough])
      else (s1, [Effect.dispatch .canplaythrough])
    else (s1, [])
  else (s, [])

/-- correctDrift: one tick of the drift corrector.  Skipped while
disabled, with fewer than two tracks, while a seek sync is in flight or
while the main element is paused.  Non-main tracks that have not ended
and whose rounded drift exceeds the threshold are recorded in one
correction entry and re-seeked to the main time. -/
def correctDrift (isSafari : Bool) (s : MediaSync) : MediaSync × List Effect :=
  if s.disabled || s.mediaElements.length ≤ 1 then (s, [])
  else if s.isSyncingSeeking then (s, [])
  else
    match s.mainElement with
    | none => (s, [])
    | some mn =>
      let mainTime := mn.currentTime
      if mn.paused then (s, [])
      else
        let driftedTracks := (s.otherTracks mn).filter (fun m =>
          if m.ended then false
          else |round ((m.currentTime - mainTime) * 1000)| > DRIFT_CORRECTION_THRESHOLD isSafari)
        let s1 :=
          if driftedTracks.length > 0 then
            { s with driftSamples := s.driftSamples ++
              [DriftRecord.correction mainTime (s.mediaElements.map (fun m =>
                { id := m.id,
                  correcting := (driftedTracks.map (fun d => d.id)).contains m.id }))] }
          else s
        if driftedTracks.length > 0 then
          s1.seekTracks (driftedTracks.map (fun d => d.id)) mainTime
        else (s1, [])

end MediaSync

/-- The debounce combinator of utils.ts, modelled on a timed call
sequence.  pending holds the scheduled (fire time, argument) pair of
the currently installed timeout; each incoming call at time t cancels a
not-yet-fired pending timeout and schedules the new arguments at
t + wait.  The result lists the (time, argument) pairs at which the
wrapped function actually fires. -/
def debounceFires {α : Type} (wait : ℚ) :
    Option (ℚ × α) → List (ℚ × α) → List (ℚ × α)
  | none, [] => []
  | some p, [] => [p]
  | none, (t, a) :: rest => debounceFires wait (some (t + wait, a)) rest
  | some (ft, fa), (t, a) :: rest =>
    if ft ≤ t then (ft, fa) :: debounceFires wait (some (t + wait, a)) rest
    else debounceFires wait (some (t + wait, a)) rest

/-- The debounced seeking re-dispatch of the facade
(debouncedSeekingHandler in setupEventDispatchers): native seeking
events arrive as (time, currentTime) pairs, are collapsed by the
debounce combinator, and each surviving fire re-emits the semantic
seeking event with its currentTime detail, provided seeking emission is
enabled on the wrapper. -/
def MediaElementWrapper.seekingEmissions (w : MediaElementWrapper)
    (burst : List (ℚ × ℚ)) : List ℚ :=
  if w.emitSeeking then (debounceFires SEEK_DEBOUNCE_DELAY none burst).map (fun p => p.2)
  else []

/-- The group-level event dispatched for a given aggregate readiness
level (the switch statement of handleReadyStateChange). -/
def readinessEvent : ℕ → EventName
  | 0 => .emptied
  | 1 => .loadedmetadata
  | 2 => .loadeddata
  | 3 => .canplay
  | _ => .canplaythrough

/-- Whether an effect is the dispatch of one of the five group-level
buffering events. -/
def isBufferingDispatch : Effect → Bool
  | .dispatch .emptied => true
  | .dispatch .loadedmetadata => true
  | .dispatch .loadeddata => true
  | .dispatch .canplay => true
  | .dispatch .canplaythrough => true
  | _ => false

/-- Concrete main track used to exercise the theorems: playing at 50s
of a 100s recording, fully buffered. -/
def trackMain : MediaElementWrapper :=
  { id := 0, isMain := true, currentTime := 50, duration := 100, paused := false,
    playbackRate := 1, readyState := 4 }

/-- Concrete secondary track: playing at 35s of a 60s recording, fully
buffered (15s of synthetic drift against trackMain). -/
def trackSecond : MediaElementWrapper :=
  { id := 1, isMain := false, currentTime := 35, duration := 60, paused := false,
    playbackRate := 1, readyState := 4 }

/-- Concrete track that has reached the end of its 60s duration. -/
def trackDone : MediaElementWrapper :=
  { id := 2, isMain := false, currentTime := 60, duration := 60, paused := true,
    playbackRate := 1, readyState := 4 }

/-- A two-track coordinator over trackMain and trackSecond. -/
def syncPair : MediaSync := { mediaElements := [trackMain, trackSecond] }

/-- The two-track coordinator with insufficient aggregate readiness
(the main track only has current data). -/
def syncLow : MediaSync :=
  { mediaElements := [{ trackMain with readyState := 2 }, trackSecond] }

/-- The two-track coordinator with synchronization disabled. -/
def syncOff : MediaSync := { syncPair with disabled := true }

/-- A coordinator with no registered tracks. -/
def syncEmpty : MediaSync := { mediaElements := [] }

/-- A three-track coordinator: the playing main track, the drifted
trackSecond, and the finished trackDone. -/
def syncTrio : MediaSync := { mediaElements := [trackMain, trackSecond, trackDone] }

/-- The two-track coordinator with a stale recorded readiness level of
CURRENT_DATA, below the aggregate of 4. -/
def syncStale : MediaSync := { syncPair with lastReadyState := 2 }

/-- The two-track coordinator whose recorded readiness level already
matches the aggregate of 4. -/
def syncFresh : MediaSync := { syncPair with lastReadyState := 4 }

/-! ### Helper lemmas -/

lemma mainElement_mem {s : MediaSync} {m : MediaElementWrapper}
    (h : s.mainElement = some m) : m ∈ s.mediaElements := by
  unfold MediaSync.mainElement at h
  rcases hf : s.mediaElements.find? (fun w => w.isMain) with _ | x
  · rw [hf] at h
    simp only [Option.orElse] at h
    cases hl : s.mediaElements with
    | nil => rw [hl] at h; simp at h
    | cons a as =>
      rw [hl] at h
      simp [List.head?] at h
      subst h
      exact List.mem_cons_self _ _
  · rw [hf] at h
    simp only [Option.orElse] at h
    cases h
    exact List.mem_of_find?_eq_some hf

lemma nodup_map_id_inj {l : List MediaElementWrapper}
    (h : (l.map (fun m => m.id)).Nodup) :
    ∀ a ∈ l, ∀ b ∈ l, a.id = b.id → a = b := by
  induction l with
  | nil => simp
  | cons x xs ih =>
    simp only [List.map_cons, List.nodup_cons] at h
    obtain ⟨hx, hxs⟩ := h
    intro a ha b hb hab
    rcases List.mem_cons.mp ha with rfl | ha' <;>
      rcases List.mem_cons.mp hb with rfl | hb'
    · rfl
    · rw [hab] at hx
      exact absurd (List.mem_map_of_mem _ hb') hx
    · rw [← hab] at hx
      exact absurd (List.mem_map_of_mem _ ha') hx
    · exact ih hxs a ha' b hb' hab

lemma foldl_min_mem : ∀ (rs : List ℕ) (r : ℕ), rs.foldl min r ∈ r :: rs := by
  intro rs
  induction rs with
  | nil => intro r; simp
  | cons x xs ih =>
    intro r
    simp only [List.foldl_cons]
    rcases List.mem_cons.mp (ih (min r x)) with h1 | h1
    · rcases min_choice r x with hm | hm
      · rw [h1, hm]; exact List.mem_cons_self _ _
      · rw [h1, hm]; exact List.mem_cons_of_mem _ (List.mem_cons_self _ _)
    · exact List.mem_cons_of_mem _ (List.mem_cons_of_mem _ h1)

lemma foldl_min_le : ∀ (rs : List ℕ) (r x : ℕ), x ∈ r :: rs → rs.foldl min r ≤ x := by
  intro rs
  induction rs with
  | nil =>
    intro r x hx
    simp at hx
    simp [hx]
  | cons y ys ih =>
    intro r x hx
    simp only [List.foldl_cons]
    rcases List.mem_cons.mp hx with h1 | hx'
    · rw [h1]
      exact le_trans (ih (min r y) (min r y) (List.mem_cons_self _ _)) (min_le_left _ _)
    · rcases List.mem_cons.mp hx' with h2 | hx''
      · rw [h2]
        exact le_trans (ih (min r y) (min r y) (List.mem_cons_self _ _)) (min_le_right _ _)
      · exact ih (min r y) x (List.mem_cons_of_mem _ hx'')

lemma readyState_mem {s : MediaSync} (h : s.mediaElements ≠ []) :
    s.readyState ∈ s.mediaElements.map (fun m => m.readyState) := by
  unfold MediaSync.readyState
  cases hl : s.mediaElements.map (fun m => m.readyState) with
  | nil =>
    exfalso
    exact h (by simpa using hl)
  | cons r rs =>
    exact foldl_min_mem rs r

lemma readyState_le {s : MediaSync} {m : MediaElementWrapper}
    (hm : m ∈ s.mediaElements) : s.readyState ≤ m.readyState := by
  unfold MediaSync.readyState
  cases hl : s.mediaElements.map (fun m => m.readyState) with
  | nil =>
    exfalso
    have : s.mediaElements = [] := by simpa using hl
    rw [this] at hm
    exact absurd hm (List.not_mem_nil m)
  | cons r rs =>
    have hmem : m.readyState ∈ r :: rs := hl ▸ List.mem_map_of_mem _ hm
    exact foldl_min_le rs r _ hmem

lemma count_map_injective {α β : Type} [DecidableEq α] [DecidableEq β]
    (f : α → β) (hf : Function.Injective f) (l : List α) (a : α) :
    (l.map f).count (f a) = l.count a := by
  induction l with
  | nil => rfl
  | cons x xs ih =>
    simp only [List.map_cons, List.count_cons, ih]
    by_cases h : a = x
    · simp [h]
    · have h1 : ¬ x = a := fun he => h he.symm
      have h2 : ¬ f x = f a := fun he => h (hf he.symm)
      simp [h1, h2]

lemma count_eq_one_of_nodup_mem {α : Type} [DecidableEq α] {l : List α} {a : α}
    (hd : l.Nodup) (ha : a ∈ l) : l.count a = 1 := by
  have h1 : l.count a ≤ 1 := List.nodup_iff_count_le_one.mp hd a
  have h2 : 0 < l.count a := List.count_pos_iff.mpr ha
  omega

lemma nodup_filter_map_id {l : List MediaElementWrapper} (p : MediaElementWrapper → Bool)
    (h : (l.map (fun m => m.id)).Nodup) :
    ((l.filter p).map (fun m => m.id)).Nodup :=
  List.Nodup.sublist (List.Sublist.map _ (List.filter_sublist l)) h

lemma otherTracks_ne_nil {s : MediaSync} {w : MediaElementWrapper}
    (hn : 2 ≤ s.mediaElements.length)
    (hnd : (s.mediaElements.map (fun m => m.id)).Nodup) :
    s.otherTracks w ≠ [] := by
  intro hnil
  have hall : ∀ m ∈ s.mediaElements, m.id = w.id := by
    intro m hm
    by_contra hne
    have hmem : m ∈ s.otherTracks w :=
      List.mem_filter.mpr ⟨hm, by simpa using hne⟩
    rw [hnil] at hmem
    exact absurd hmem (List.not_mem_nil m)
  have hcount : (s.mediaElements.map (fun m => m.id)).count w.id =
      (s.mediaElements.map (fun m => m.id)).length := by
    rw [List.count_eq_length]
    intro b hb
    obtain ⟨m, hm, rfl⟩ := List.mem_map.mp hb
    exact (hall m hm).symm
  have hle := List.nodup_iff_count_le_one.mp hnd w.id
  rw [hcount, List.length_map] at hle
  omega

lemma seekTracks_eq {s : MediaSync} {ids : List ℕ} (t : ℚ)
    (hne : ids ≠ []) (hd : s.disabled = false) :
    s.seekTracks ids t =
      ({ s with
          driftSampling := false, driftCorrection := false,
          isSyncingSeeking := true,
          mediaElements := (s.mediaElements.map
              (fun w => w.suppressEventType .seeking)).map
            (fun m => if ids.contains m.id then m.setCurrentTime t else m) },
        ids.map (fun i => Effect.setTime i t)) := by
  unfold MediaSync.seekTracks
  rw [if_neg, if_neg]
  · rfl
  · rw [hd]; exact Bool.false_ne_true
  · simpa [List.isEmpty_iff] using hne

lemma playTracks_eq {s : MediaSync} {ids : List ℕ}
    (hne : ids ≠ []) (hr : ¬ s.readyState < 4) :
    s.playTracks ids =
      (let s2 : MediaSync := { s with
          mediaElements := (s.mediaElements.map
              (fun w => w.suppressEventType EventName.play)).map
            (fun m => if ids.contains m.id then m.play else m) }
        if s2.mediaElements.all (fun m => !m.paused) then
          (s2.startDriftSampling).startDriftCorrection
        else s2,
        ids.map (fun i => Effect.playCall i)) := by
  unfold MediaSync.playTracks
  rw [if_neg, if_neg]
  · rfl
  · exact hr
  · simpa [List.isEmpty_iff] using hne

lemma pauseTracks_eq {s : MediaSync} {ids : List ℕ} (hne : ids ≠ []) :
    s.pauseTracks ids =
      ({ s with
          driftSampling := false, driftCorrection := false,
          mediaElements := (s.mediaElements.map
              (fun w => w.suppressEventType EventName.pause)).map
            (fun m => if ids.contains m.id then m.pause else m) },
        ids.map (fun i => Effect.pauseCall i)) := by
  unfold MediaSync.pauseTracks
  rw [if_neg]
  · rfl
  · simpa [List.isEmpty_iff] using hne

lemma debounceFires_collapses {α : Type} (wait : ℚ) :
    ∀ (rest : List (ℚ × α)) (t : ℚ) (a : α),
      List.Chain' (fun p q => q.1 < p.1 + wait) ((t, a) :: rest) →
      debounceFires wait (some (t + wait, a)) rest =
        [((((t, a) :: rest).getLast (List.cons_ne_nil _ _)).1 + wait,
          (((t, a) :: rest).getLast (List.cons_ne_nil _ _)).2)] := by
  intro rest
  induction rest with
  | nil =>
    intro t a _
    simp [debounceFires]
  | cons p rest ih =>
    intro t a hch
    obtain ⟨t1, a1⟩ := p
    rw [List.chain'_cons] at hch
    obtain ⟨h1, h2⟩ := hch
    simp only at h1
    unfold debounceFires
    rw [if_neg (not_le.mpr h1)]
    rw [ih t1 a1 h2]
    simp [List.getLast_cons]

/-! ### The claims -/

/-- Claim C10: on a coordinator with zero registered tracks every
public getter returns its fixed default without failing: currentTime 0,
readyState 0, paused true, playbackRate 1.0, duration 0, ended false. -/
theorem C10_empty_group_getters (s : MediaSync) (h : s.mediaElements = []) :
    s.currentTime = 0 ∧ s.readyState = 0 ∧ s.paused = true ∧
    s.playbackRate = 1 ∧ s.duration = 0 ∧ s.ended = false := by
  have hm : s.mainElement = none := by
    unfold MediaSync.mainElement
    rw [h]
    rfl
  refine ⟨?_, ?_, ?_, ?_, ?_, ?_⟩ <;>
    simp [MediaSync.currentTime, MediaSync.readyState, MediaSync.paused,
      MediaSync.playbackRate, MediaSync.duration, MediaSync.ended, hm, h]

/-- Witness for C10, at the concrete empty coordinator. -/
theorem C10_empty_group_getters_witness :
    syncEmpty.currentTime = 0 ∧ syncEmpty.readyState = 0 ∧ syncEmpty.paused = true ∧
    syncEmpty.playbackRate = 1 ∧ syncEmpty.duration = 0 ∧ syncEmpty.ended = false :=
  C10_empty_group_getters syncEmpty rfl

/-- Claim C7 counterexample: on the concrete disabled two-track
coordinator the waiting listener is not inert — it flips the group
isWaitingForData flag from false to true and dispatches a group-level
waiting event — and the ended listener on the main track still
dispatches a group-level ended event, so under disabled not every
propagation rule leaves the group state unchanged. -/
theorem C7_counterexample :
    syncOff.disabled = true ∧ syncOff.isWaitingForData = false ∧
    syncOff.onWaiting =
      (({ syncOff with isWaitingForData := true } : MediaSync),
        [Effect.dispatch EventName.waiting]) ∧
    syncOff.onEnded trackMain = (syncOff, [Effect.dispatch EventName.ended]) :=
  ⟨rfl, rfl, rfl, rfl⟩

/-- Claim C7 (amended): while the disabled flag is set, the seeking,
play, pause and ratechange propagation listeners are inert and the
public play, pause, currentTime setter and playbackRate setter leave
the group state unchanged and perform no action on any track; the
waiting listener, which the source does not gate on disabled, still
records isWaitingForData and dispatches a group-level waiting event —
pausing no track, since its nested public pause() call is the disabled
no-op — and the ended listener on the main track still dispatches a
group-level ended event without pausing any sibling (and remains silent
for a non-main track). -/
theorem C7_disabled_bypass (s : MediaSync) (w : MediaElementWrapper) (t r : ℚ)
    (h : s.disabled = true) :
    s.play = (s, []) ∧ s.pause = (s, []) ∧
    s.setCurrentTime t = (s, []) ∧ s.setPlaybackRate r = (s, []) ∧
    s.onSeeking w t = (s, []) ∧ s.onPlay w = (s, []) ∧
    s.onPause w = (s, []) ∧ s.onRatechange w r = (s, []) ∧
    s.onWaiting = (({ s with isWaitingForData := true } : MediaSync),
      [Effect.dispatch EventName.waiting]) ∧
    (w.isMain = true → s.onEnded w = (s, [Effect.dispatch EventName.ended])) ∧
    (w.isMain = false → s.onEnded w = (s, [])) := by
  refine ⟨?_, ?_, ?_, ?_, ?_, ?_, ?_, ?_, ?_, ?_, ?_⟩
  · simp [MediaSync.play, h]
  · simp [MediaSync.pause, h]
  · simp [MediaSync.setCurrentTime, h]
  · simp [MediaSync.setPlaybackRate, h]
  · simp [MediaSync.onSeeking, h]
  · simp [MediaSync.onPlay, h]
  · simp [MediaSync.onPause, h]
  · simp [MediaSync.onRatechange, h]
  · simp [MediaSync.onWaiting, MediaSync.pause, h]
  · intro him
    simp [MediaSync.onEnded, him, h]
  · intro him
    simp [MediaSync.onEnded, him]

/-- Witness for C7 (amended), at the concrete disabled two-track
coordinator, exercising the inert public play, the non-inert waiting
listener and the ended dispatch of the main track. -/
theorem C7_disabled_bypass_witness :
    syncOff.play = (syncOff, []) ∧
    syncOff.onWaiting =
      (({ syncOff with isWaitingForData := true } : MediaSync),
        [Effect.dispatch EventName.waiting]) ∧
    syncOff.onEnded trackMain = (syncOff, [Effect.dispatch EventName.ended]) :=
  ⟨(C7_disabled_bypass syncOff trackMain 80 2 rfl).1,
   (C7_disabled_bypass syncOff trackMain 80 2 rfl).2.2.2.2.2.2.2.2.1,
   (C7_disabled_bypass syncOff trackMain 80 2 rfl).2.2.2.2.2.2.2.2.2.1 rfl⟩

/-- Claim C8 counterexample: on a track whose duration is 0 (as the
wrapper duration getter reports before metadata is available), seeking
to a target at or past the duration writes 0 to the element, not
duration - 0.05 = -0.05, because the source clamps the written value at
Math.max(0, duration - 0.05). -/
theorem C8_counterexample :
    (0 : ℚ) ≥ ({ trackMain with duration := 0 } : MediaElementWrapper).duration ∧
    (({ trackMain with duration := 0 } : MediaElementWrapper).setCurrentTime 0).currentTime ≠
      ({ trackMain with duration := 0 } : MediaElementWrapper).duration - 1/20 := by
  constructor
  · simp [trackMain]
  · simp [trackMain, MediaElementWrapper.setCurrentTime]

/-- Claim C8 (amended): for a seek target at or past the duration the
wrapper currentTime setter writes max(0, duration - 0.05) to the
underlying element — which equals duration - 0.05 whenever
duration ≥ 0.05, in particular in the spec scenario of duration 60 —
and for a target below the duration it writes the target unchanged. -/
theorem C8_currentTime_clamp (w : MediaElementWrapper) (t : ℚ) :
    (t ≥ w.duration → (w.setCurrentTime t).currentTime = max 0 (w.duration - 1/20)) ∧
    (t ≥ w.duration → 1/20 ≤ w.duration →
      (w.setCurrentTime t).currentTime = w.duration - 1/20) ∧
    (t < w.duration → (w.setCurrentTime t).currentTime = t) := by
  unfold MediaElementWrapper.setCurrentTime
  refine ⟨?_, ?_, ?_⟩
  · intro h
    rw [if_pos h]
  · intro h hd
    rw [if_pos h]
    show max 0 (w.duration - 1/20) = w.duration - 1/20
    rw [max_eq_right (by linarith)]
  · intro h
    rw [if_neg (not_le.mpr h)]

/-- Witness for C8 (amended), at a 60s track: seeking to 80 writes
59.95 and seeking to 30 writes 30. -/
theorem C8_currentTime_clamp_witness :
    (trackSecond.setCurrentTime 80).currentTime = trackSecond.duration - 1/20 ∧
    (trackSecond.setCurrentTime 30).currentTime = 30 :=
  ⟨(C8_currentTime_clamp trackSecond 80).2.1 (by norm_num [trackSecond])
      (by norm_num [trackSecond]),
   (C8_currentTime_clamp trackSecond 30).2.2 (by norm_num [trackSecond])⟩

/-- Claim C9: a burst of native seeking events whose consecutive
spacings stay inside the 10ms debounce window produces exactly one
semantic seeking emission from the facade, carrying the currentTime of
the last event of the burst; consequently the single downstream seek
the coordinator applies to the other tracks uses exactly that last
value. -/
theorem C9_debounced_seek_burst (w : MediaElementWrapper)
    (p : ℚ × ℚ) (rest : List (ℚ × ℚ))
    (hw : w.emitSeeking = true)
    (hch : List.Chain' (fun a b => b.1 < a.1 + SEEK_DEBOUNCE_DELAY) (p :: rest)) :
    w.seekingEmissions (p :: rest) =
      [((p :: rest).getLast (List.cons_ne_nil _ _)).2] ∧
    (∀ (s : MediaSync) (x : MediaElementWrapper),
      s.disabled = false → s.isSyncingSeeking = false →
      (s.onSeeking x (((p :: rest).getLast (List.cons_ne_nil _ _)).2)).2 =
        Effect.dispatch .seeking ::
          ((s.otherTracks x).map (fun m => m.id)).map
            (fun i => Effect.setTime i (((p :: rest).getLast (List.cons_ne_nil _ _)).2))) := by
  obtain ⟨t, a⟩ := p
  constructor
  · unfold MediaElementWrapper.seekingEmissions
    rw [if_pos hw]
    show (debounceFires SEEK_DEBOUNCE_DELAY (some (t + SEEK_DEBOUNCE_DELAY, a)) rest).map
      (fun p => p.2) = _
    rw [debounceFires_collapses SEEK_DEBOUNCE_DELAY rest t a hch]
    simp
  · intro s x hd hs
    unfold MediaSync.onSeeking MediaSync.seekTracks
    rw [if_neg, if_neg]
    · by_cases hids : ((s.otherTracks x).map (fun m => m.id)) = []
      · rw [hids]
        simp
      · rw [if_neg (by simpa [List.isEmpty_iff] using hids), if_neg (by rw [hd]; exact Bool.false_ne_true)]
    · rw [hs]; exact Bool.false_ne_true
    · rw [hd]; exact Bool.false_ne_true

/-- Witness for C9: five seeks to 0, 10, 20, 30, 40 in one burst yield
one emission carrying 40. -/
theorem C9_debounced_seek_burst_witness :
    trackSecond.seekingEmissions [(0, 0), (1, 10), (2, 20), (3, 30), (4, 40)] = [40] :=
  (C9_debounced_seek_burst trackSecond (0, 0) [(1, 10), (2, 20), (3, 30), (4, 40)]
    rfl (by norm_num [List.chain'_cons, SEEK_DEBOUNCE_DELAY])).1

lemma mem_otherIds {s : MediaSync} {w m : MediaElementWrapper}
    (hm : m ∈ s.mediaElements) (hne : m.id ≠ w.id) :
    m.id ∈ (s.otherTracks w).map (fun m => m.id) :=
  List.mem_map_of_mem _ (List.mem_filter.mpr ⟨hm, by simpa using hne⟩)

lemma not_mem_otherIds {s : MediaSync} {w : MediaElementWrapper} :
    w.id ∉ (s.otherTracks w).map (fun m => m.id) := by
  intro h
  obtain ⟨m, hm, hid⟩ := List.mem_map.mp h
  have h2 := (List.mem_filter.mp hm).2
  simp at h2
  exact h2 hid

/-- Claim C5: a pause event from a track whose ended state is true is
not propagated — no group-level pause event and no pause() on any
sibling — while a pause event from a non-ended track dispatches the
group-level pause event and invokes pause() exactly once on every other
track and never on the source track. -/
theorem C5_ended_pause_isolation (s : MediaSync) (w : MediaElementWrapper)
    (hd : s.disabled = false)
    (hnd : (s.mediaElements.map (fun m => m.id)).Nodup) :
    (w.ended = true → s.onPause w = (s, [])) ∧
    (w.ended = false →
      Effect.dispatch .pause ∈ (s.onPause w).2 ∧
      (∀ m ∈ s.mediaElements, m.id ≠ w.id →
        (s.onPause w).2.count (Effect.pauseCall m.id) = 1) ∧
      (s.onPause w).2.count (Effect.pauseCall w.id) = 0) := by
  have hdno : ¬ s.disabled = true := by rw [hd]; exact Bool.false_ne_true
  constructor
  · intro he
    unfold MediaSync.onPause
    rw [if_neg hdno, if_pos he]
  · intro he
    have heno : ¬ w.ended = true := by rw [he]; exact Bool.false_ne_true
    unfold MediaSync.onPause
    rw [if_neg hdno, if_neg heno]
    by_cases hids : ((s.otherTracks w).map (fun m => m.id)) = []
    · refine ⟨?_, ?_, ?_⟩
      · rw [hids]
        unfold MediaSync.pauseTracks
        simp
      · intro m hm hne
        exact absurd (hids ▸ mem_otherIds hm hne) (List.not_mem_nil _)
      · rw [hids]
        unfold MediaSync.pauseTracks
        simp
    · rw [pauseTracks_eq hids]
      refine ⟨List.mem_cons_self _ _, ?_, ?_⟩
      · intro m hm hne
        rw [List.count_cons_of_ne (by simp),
          count_map_injective (fun i => Effect.pauseCall i)
            (fun a b hab => by cases hab; rfl)]
        exact count_eq_one_of_nodup_mem (nodup_filter_map_id _ hnd) (mem_otherIds hm hne)
      · rw [List.count_cons_of_ne (by simp),
          count_map_injective (fun i => Effect.pauseCall i)
            (fun a b hab => by cases hab; rfl)]
        exact List.count_eq_zero.mpr not_mem_otherIds

/-- Witness for C5 at concrete tracks: the ended track trackDone does
not propagate its pause, and a pause on trackMain pauses trackSecond
exactly once. -/
theorem C5_ended_pause_isolation_witness :
    syncPair.onPause trackDone = (syncPair, []) ∧
    (syncPair.onPause trackMain).2.count (Effect.pauseCall trackSecond.id) = 1 :=
  ⟨(C5_ended_pause_isolation syncPair trackDone rfl (by decide)).1
     (by norm_num [MediaElementWrapper.ended, trackDone]),
   ((C5_ended_pause_isolation syncPair trackMain rfl (by decide)).2
       (by norm_num [MediaElementWrapper.ended, trackMain, abs_sub_lt_iff])).2.1
     trackSecond (List.mem_cons_of_mem _ (List.mem_cons_self _ _)) (by decide)⟩

/-- Claim C6: while the aggregate readyState is below ENOUGH_DATA, a
play event from a track makes the coordinator invoke pause() exactly on
that track — with the pause event type suppressed on every wrapper, so
the echoed native pause emits nothing — invoke play() on no track, and
change no other per-track state; likewise the group-level playTracks
call is a complete no-op in that situation. -/
theorem C6_insufficient_readiness_gate (s : MediaSync) (w : MediaElementWrapper)
    (hd : s.disabled = false) (hr : s.readyState < 4) :
    (s.onPlay w).2 = [Effect.pauseCall w.id] ∧
    (∀ m ∈ (s.onPlay w).1.mediaElements,
      m.emitPause = false ∧ m.nativePauseEmission = none) ∧
    List.Forall₂ (fun (m m' : MediaElementWrapper) =>
        m'.id = m.id ∧ m'.paused = (if m.id = w.id then true else m.paused) ∧
        m'.currentTime = m.currentTime ∧ m'.playbackRate = m.playbackRate)
      s.mediaElements (s.onPlay w).1.mediaElements ∧
    s.playTracks s.allIds = (s, []) := by
  have hdno : ¬ s.disabled = true := by rw [hd]; exact Bool.false_ne_true
  have honPlay : s.onPlay w =
      (({ s with
          mediaElements := (s.mediaElements.map
              (fun m => m.suppressEventType EventName.pause)).map
            (fun m => if m.id = w.id then m.pause else m) } : MediaSync),
        [Effect.pauseCall w.id]) := by
    unfold MediaSync.onPlay
    rw [if_neg hdno, if_pos hr]
    rfl
  refine ⟨by rw [honPlay], ?_, ?_, ?_⟩
  · intro m hm
    rw [honPlay] at hm
    simp only [List.map_map, List.mem_map, Function.comp] at hm
    obtain ⟨m0, _, rfl⟩ := hm
    by_cases h0 : m0.id = w.id <;>
      simp [h0, MediaElementWrapper.suppressEventType, MediaElementWrapper.pause,
        MediaElementWrapper.nativePauseEmission]
  · rw [honPlay]
    simp only [List.map_map]
    rw [List.forall₂_map_right_iff, List.forall₂_same]
    intro m _
    by_cases h0 : m.id = w.id <;>
      simp [h0, Function.comp, MediaElementWrapper.suppressEventType,
        MediaElementWrapper.pause]
  · simp [MediaSync.playTracks, hr]

/-- Witness for C6: with the main track only at CURRENT_DATA readiness,
a play event from trackSecond pauses exactly trackSecond. -/
theorem C6_insufficient_readiness_gate_witness :
    (syncLow.onPlay trackSecond).2 = [Effect.pauseCall trackSecond.id] ∧
    syncLow.playTracks syncLow.allIds = (syncLow, []) :=
  ⟨(C6_insufficient_readiness_gate syncLow trackSecond rfl (by decide)).1,
   (C6_insufficient_readiness_gate syncLow trackSecond rfl (by decide)).2.2.2⟩

lemma startDriftSampling_mediaElements (s : MediaSync) :
    s.startDriftSampling.mediaElements = s.mediaElements := by
  unfold MediaSync.startDriftSampling
  split <;> rfl

lemma startDriftCorrection_mediaElements (s : MediaSync) :
    s.startDriftCorrection.mediaElements = s.mediaElements := by
  unfold MediaSync.startDriftCorrection
  split <;> rfl

/-- Claim C1: with the aggregate readiness at ENOUGH_DATA and at least
two tracks, a play event from track w makes the coordinator invoke
play() at most once on each track other than w and never on w itself;
moreover, in the state in which the mirrored play() calls run, the play
event type is suppressed on every wrapper, so the echoed native play
events re-emit no semantic play event. -/
theorem C1_no_double_propagation (s : MediaSync) (w : MediaElementWrapper)
    (hd : s.disabled = false) (hr : s.readyState = 4)
    (hn : 2 ≤ s.mediaElements.length)
    (hnd : (s.mediaElements.map (fun m => m.id)).Nodup) :
    (∀ m ∈ s.mediaElements, (s.onPlay w).2.count (Effect.playCall m.id) ≤ 1) ∧
    (s.onPlay w).2.count (Effect.playCall w.id) = 0 ∧
    (∀ m ∈ (s.onPlay w).1.mediaElements, m.nativePlayEmission = none) := by
  have hdno : ¬ s.disabled = true := by rw [hd]; exact Bool.false_ne_true
  have hrno : ¬ s.readyState < 4 := by omega
  have hids : ((s.otherTracks w).map (fun m => m.id)) ≠ [] := by
    intro h
    exact otherTracks_ne_nil hn hnd (by simpa using h)
  have honPlay2 : (s.onPlay w).2 =
      Effect.dispatch EventName.play ::
        ((s.otherTracks w).map (fun m => m.id)).map (fun i => Effect.playCall i) := by
    unfold MediaSync.onPlay
    rw [if_neg hdno, if_neg hrno]
    simp only
    rw [playTracks_eq hids hrno]
  have honPlay1 : (s.onPlay w).1.mediaElements =
      (s.mediaElements.map (fun m => m.suppressEventType EventName.play)).map
        (fun m => if ((s.otherTracks w).map (fun m => m.id)).contains m.id
          then m.play else m) := by
    unfold MediaSync.onPlay
    rw [if_neg hdno, if_neg hrno]
    simp only
    rw [playTracks_eq hids hrno]
    simp only
    split
    · rw [startDriftCorrection_mediaElements, startDriftSampling_mediaElements]
    · rfl
  refine ⟨?_, ?_, ?_⟩
  · intro m _
    rw [honPlay2, List.count_cons_of_ne (by simp),
      count_map_injective (fun i => Effect.playCall i)
        (fun a b hab => by cases hab; rfl)]
    exact List.nodup_iff_count_le_one.mp (nodup_filter_map_id _ hnd) m.id
  · rw [honPlay2, List.count_cons_of_ne (by simp),
      count_map_injective (fun i => Effect.playCall i)
        (fun a b hab => by cases hab; rfl)]
    exact List.count_eq_zero.mpr not_mem_otherIds
  · intro m hm
    rw [honPlay1] at hm
    simp only [List.map_map, List.mem_map, Function.comp] at hm
    obtain ⟨m0, _, rfl⟩ := hm
    simp only [MediaElementWrapper.suppressEventType, MediaElementWrapper.play,
      MediaElementWrapper.nativePlayEmission]
    split <;> rfl

/-- Witness for C1: in the fully buffered two-track group, a play
event from trackMain plays trackSecond at most once and trackMain not
at all. -/
theorem C1_no_double_propagation_witness :
    (syncPair.onPlay trackMain).2.count (Effect.playCall trackMain.id) = 0 ∧
    (syncPair.onPlay trackMain).2.count (Effect.playCall trackSecond.id) ≤ 1 :=
  ⟨(C1_no_double_propagation syncPair trackMain rfl (by decide) (by decide)
      (by decide)).2.1,
   (C1_no_double_propagation syncPair trackMain rfl (by decide) (by decide)
      (by decide)).1 trackSecond
      (List.mem_cons_of_mem _ (List.mem_cons_self _ _))⟩

lemma startDriftSampling_isSyncingSeeking (s : MediaSync) :
    s.startDriftSampling.isSyncingSeeking = s.isSyncingSeeking := by
  unfold MediaSync.startDriftSampling
  split <;> rfl

lemma startDriftCorrection_isSyncingSeeking (s : MediaSync) :
    s.startDriftCorrection.isSyncingSeeking = s.isSyncingSeeking := by
  unfold MediaSync.startDriftCorrection
  split <;> rfl

lemma startDriftCorrection_driftSampling (s : MediaSync) :
    s.startDriftCorrection.driftSampling = s.driftSampling := by
  unfold MediaSync.startDriftCorrection
  split <;> rfl

lemma startDriftSampling_disabled (s : MediaSync) :
    s.startDriftSampling.disabled = s.disabled := by
  unfold MediaSync.startDriftSampling
  split <;> rfl

lemma startDriftSampling_driftCorrection (s : MediaSync) :
    s.startDriftSampling.driftCorrection = s.driftCorrection := by
  unfold MediaSync.startDriftSampling
  split <;> rfl

lemma startDriftSampling_driftCorrectionEnabled (s : MediaSync) :
    s.startDriftSampling.driftCorrectionEnabled = s.driftCorrectionEnabled := by
  unfold MediaSync.startDriftSampling
  split <;> rfl

lemma setCurrentTime_emitSeeking (w : MediaElementWrapper) (t : ℚ) :
    (w.setCurrentTime t).emitSeeking = w.emitSeeking := by
  unfold MediaElementWrapper.setCurrentTime
  split <;> rfl

lemma setCurrentTime_paused (w : MediaElementWrapper) (t : ℚ) :
    (w.setCurrentTime t).paused = w.paused := by
  unfold MediaElementWrapper.setCurrentTime
  split <;> rfl

lemma setCurrentTime_id (w : MediaElementWrapper) (t : ℚ) :
    (w.setCurrentTime t).id = w.id := by
  unfold MediaElementWrapper.setCurrentTime
  split <;> rfl

lemma all_not_paused_map {l : List MediaElementWrapper}
    {f : MediaElementWrapper → MediaElementWrapper}
    (hf : ∀ m, (f m).paused = m.paused) :
    (l.map f).all (fun m => !m.paused) = l.all (fun m => !m.paused) := by
  induction l with
  | nil => rfl
  | cons x xs ih => simp [List.all_cons, hf, ih]

/-- Claim C3: a seeking event carrying target t is dropped with no
effect while a seek sync is in flight; otherwise the coordinator
suppresses seeking on all wrappers, stops drift sampling and
correction, raises the in-flight flag, invokes the currentTime setter
with t exactly once on every other track and never on the source, and
the deferred callback then clears the in-flight flag, re-enables
seeking everywhere and restarts the drift engine exactly when every
track is not paused. -/
theorem C3_seek_propagation (s : MediaSync) (w : MediaElementWrapper) (t : ℚ)
    (hd : s.disabled = false)
    (hn : 2 ≤ s.mediaElements.length)
    (hnd : (s.mediaElements.map (fun m => m.id)).Nodup)
    (he : s.driftCorrectionEnabled = true) :
    (s.isSyncingSeeking = true → s.onSeeking w t = (s, [])) ∧
    (s.isSyncingSeeking = false →
      (∀ m ∈ (s.onSeeking w t).1.mediaElements, m.emitSeeking = false) ∧
      (s.onSeeking w t).1.driftSampling = false ∧
      (s.onSeeking w t).1.driftCorrection = false ∧
      (s.onSeeking w t).1.isSyncingSeeking = true ∧
      (∀ m ∈ s.mediaElements, m.id ≠ w.id →
        (s.onSeeking w t).2.count (Effect.setTime m.id t) = 1) ∧
      (s.onSeeking w t).2.count (Effect.setTime w.id t) = 0 ∧
      (s.onSeeking w t).1.seekTracksTimeout.isSyncingSeeking = false ∧
      (∀ m ∈ (s.onSeeking w t).1.seekTracksTimeout.mediaElements,
        m.emitSeeking = true) ∧
      ((s.onSeeking w t).1.seekTracksTimeout.driftSampling = true ↔
        s.mediaElements.all (fun m => !m.paused) = true) ∧
      ((s.onSeeking w t).1.seekTracksTimeout.driftCorrection = true ↔
        s.mediaElements.all (fun m => !m.paused) = true)) := by
  have hdno : ¬ s.disabled = true := by rw [hd]; exact Bool.false_ne_true
  constructor
  · intro hs
    unfold MediaSync.onSeeking
    rw [if_neg hdno, if_pos hs]
  · intro hs
    have hsno : ¬ s.isSyncingSeeking = true := by rw [hs]; exact Bool.false_ne_true
    have hids : ((s.otherTracks w).map (fun m => m.id)) ≠ [] := by
      intro h
      exact otherTracks_ne_nil hn hnd (by simpa using h)
    have hseek : s.onSeeking w t =
        (({ s with
            driftSampling := false, driftCorrection := false,
            isSyncingSeeking := true,
            mediaElements := (s.mediaElements.map
                (fun m => m.suppressEventType EventName.seeking)).map
              (fun m => if ((s.otherTracks w).map (fun m => m.id)).contains m.id
                then m.setCurrentTime t else m) } : MediaSync),
          Effect.dispatch EventName.seeking ::
            ((s.otherTracks w).map (fun m => m.id)).map
              (fun i => Effect.setTime i t)) := by
      unfold MediaSync.onSeeking
      rw [if_neg hdno, if_neg hsno]
      simp only
      rw [seekTracks_eq t hids hd]
    have hpaused : ((s.onSeeking w t).1.mediaElements.map
          (fun m => m.enableEventType EventName.seeking)).all (fun m => !m.paused) =
        s.mediaElements.all (fun m => !m.paused) := by
      rw [hseek]
      simp only
      have henable : ∀ m : MediaElementWrapper,
          (m.enableEventType EventName.seeking).paused = m.paused := fun m => rfl
      have hmid : ∀ m : MediaElementWrapper,
          (if ((s.otherTracks w).map (fun m => m.id)).contains m.id
            then m.setCurrentTime t else m).paused = m.paused := by
        intro m
        split
        · rw [setCurrentTime_paused]
        · rfl
      have hsup : ∀ m : MediaElementWrapper,
          (m.suppressEventType EventName.seeking).paused = m.paused := fun m => rfl
      rw [all_not_paused_map henable, all_not_paused_map hmid,
        all_not_paused_map hsup]
    refine ⟨?_, by rw [hseek], by rw [hseek], by rw [hseek], ?_, ?_, ?_, ?_, ?_, ?_⟩
    · intro m hm
      rw [hseek] at hm
      simp only [List.map_map, List.mem_map, Function.comp] at hm
      obtain ⟨m0, _, rfl⟩ := hm
      simp only [MediaElementWrapper.suppressEventType]
      split
      · rw [setCurrentTime_emitSeeking]
      · rfl
    · intro m hm hne
      rw [hseek, List.count_cons_of_ne (by simp),
        count_map_injective (fun i => Effect.setTime i t)
          (fun a b hab => by cases hab; rfl)]
      exact count_eq_one_of_nodup_mem (nodup_filter_map_id _ hnd) (mem_otherIds hm hne)
    · rw [hseek, List.count_cons_of_ne (by simp),
        count_map_injective (fun i => Effect.setTime i t)
          (fun a b hab => by cases hab; rfl)]
      exact List.count_eq_zero.mpr not_mem_otherIds
    · unfold MediaSync.seekTracksTimeout MediaSync.enableEvents
      simp only [hpaused]
      by_cases hall : s.mediaElements.all (fun m => !m.paused) = true
      · rw [if_pos hall]
        rw [startDriftCorrection_isSyncingSeeking, startDriftSampling_isSyncingSeeking]
      · rw [if_neg hall]
    · intro m hm
      unfold MediaSync.seekTracksTimeout MediaSync.enableEvents at hm
      simp only [hpaused] at hm
      by_cases hall : s.mediaElements.all (fun m => !m.paused) = true
      · rw [if_pos hall, startDriftCorrection_mediaElements,
          startDriftSampling_mediaElements] at hm
        simp only [List.mem_map] at hm
        obtain ⟨m0, _, rfl⟩ := hm
        rfl
      · rw [if_neg hall] at hm
        simp only [List.mem_map] at hm
        obtain ⟨m0, _, rfl⟩ := hm
        rfl
    · unfold MediaSync.seekTracksTimeout MediaSync.enableEvents
      simp only [hpaused]
      by_cases hall : s.mediaElements.all (fun m => !m.paused) = true
      · rw [if_pos hall, startDriftCorrection_driftSampling]
        unfold MediaSync.startDriftSampling
        rw [hseek]
        simp [hd, hall]
      · rw [if_neg hall]
        rw [hseek]
        simp [hall]
    · unfold MediaSync.seekTracksTimeout MediaSync.enableEvents
      simp only [hpaused]
      by_cases hall : s.mediaElements.all (fun m => !m.paused) = true
      · rw [if_pos hall]
        unfold MediaSync.startDriftCorrection
        rw [startDriftSampling_disabled, startDriftSampling_driftCorrection,
          startDriftSampling_driftCorrectionEnabled]
        rw [hseek]
        simp [hd, he, hall]
      · rw [if_neg hall]
        rw [hseek]
        simp [hall]

/-- Witness for C3: a seeking event to 80s from trackSecond raises the
in-flight flag and seeks trackMain exactly once, and the deferred
callback restarts drift sampling exactly when every track is playing. -/
theorem C3_seek_propagation_witness :
    (syncPair.onSeeking trackSecond 80).1.isSyncingSeeking = true ∧
    (syncPair.onSeeking trackSecond 80).2.count (Effect.setTime trackMain.id 80) = 1 ∧
    ((syncPair.onSeeking trackSecond 80).1.seekTracksTimeout.driftSampling = true ↔
      syncPair.mediaElements.all (fun m => !m.paused) = true) :=
  ⟨((C3_seek_propagation syncPair trackSecond 80 rfl (by decide) (by decide) rfl).2
      rfl).2.2.2.1,
   ((C3_seek_propagation syncPair trackSecond 80 rfl (by decide) (by decide) rfl).2
      rfl).2.2.2.2.1 trackMain (List.mem_cons_self _ _) (by decide),
   ((C3_seek_propagation syncPair trackSecond 80 rfl (by decide) (by decide) rfl).2
      rfl).2.2.2.2.2.2.2.2.1⟩

lemma filter_buffering_map_playCall (ids : List ℕ) :
    ((ids.map (fun i => Effect.playCall i)).filter isBufferingDispatch) = [] := by
  induction ids with
  | nil => rfl
  | cons x xs ih => simp [isBufferingDispatch, ih]

lemma playTracks_effects_no_buffering (s : MediaSync) (ids : List ℕ) :
    ((s.playTracks ids).2.filter isBufferingDispatch) = [] := by
  unfold MediaSync.playTracks
  split
  · rfl
  · split
    · rfl
    · exact filter_buffering_map_playCall ids

lemma play_effects_no_buffering (s : MediaSync) :
    ((s.play).2.filter isBufferingDispatch) = [] := by
  unfold MediaSync.play
  split
  · rfl
  · exact playTracks_effects_no_buffering s s.allIds

/-- Claim C2: for a non-empty group the aggregate readyState equals the
minimum of the readiness levels of the tracks (it is one of them and a
lower bound of all of them), and a recompute dispatches exactly one of
the five group-level buffering events — the one matching the new
level — precisely when the recomputed minimum differs from the last
recorded value, and dispatches nothing on a recompute that does not
change the level. -/
theorem C2_readiness_aggregator (s : MediaSync)
    (hne : s.mediaElements ≠ [])
    (hb : ∀ m ∈ s.mediaElements, m.readyState ≤ 4) :
    (s.readyState ∈ s.mediaElements.map (fun m => m.readyState) ∧
      ∀ m ∈ s.mediaElements, s.readyState ≤ m.readyState) ∧
    (s.readyState ≠ s.lastReadyState →
      (s.handleReadyStateChange.2.filter isBufferingDispatch) =
        [Effect.dispatch (readinessEvent s.readyState)]) ∧
    (s.readyState = s.lastReadyState → s.handleReadyStateChange.2 = []) := by
  have hmem := readyState_mem hne
  have hle4 : s.readyState ≤ 4 := by
    obtain ⟨m, hm, hmr⟩ := List.mem_map.mp hmem
    rw [← hmr]
    exact hb m hm
  refine ⟨⟨hmem, fun m hm => readyState_le hm⟩, ?_, ?_⟩
  · intro hch
    simp only [MediaSync.handleReadyStateChange]
    rw [if_pos hch]
    have h5 : s.readyState = 0 ∨ s.readyState = 1 ∨ s.readyState = 2 ∨
        s.readyState = 3 ∨ s.readyState = 4 := by omega
    rcases h5 with h | h | h | h | h
    · rw [h]; simp [readinessEvent, isBufferingDispatch, List.filter_cons]
    · rw [h]; simp [readinessEvent, isBufferingDispatch, List.filter_cons]
    · rw [h]; simp [readinessEvent, isBufferingDispatch, List.filter_cons]
    · rw [h]; simp [readinessEvent, isBufferingDispatch, List.filter_cons]
    · rw [h]
      rw [if_neg (by omega), if_neg (by omega), if_neg (by omega), if_neg (by omega),
        if_pos rfl]
      split
      · split
        · simp [readinessEvent, isBufferingDispatch, List.filter_cons,
            play_effects_no_buffering]
        · simp [readinessEvent, isBufferingDispatch, List.filter_cons]
      · simp [readinessEvent, isBufferingDispatch, List.filter_cons]
  · intro heq
    simp only [MediaSync.handleReadyStateChange]
    rw [if_neg (by simp [heq])]

/-- Witness for C2: with both tracks at level 4 and a stale recorded
level of 2, one canplaythrough dispatch fires; with the recorded level
already 4, nothing fires. -/
theorem C2_readiness_aggregator_witness :
    (syncStale.handleReadyStateChange.2.filter isBufferingDispatch) =
      [Effect.dispatch (readinessEvent syncStale.readyState)] ∧
    syncFresh.handleReadyStateChange.2 = [] :=
  ⟨(C2_readiness_aggregator syncStale (by decide) (by decide)).2.1 (by decide),
   (C2_readiness_aggregator syncFresh (by decide) (by decide)).2.2 (by decide)⟩

lemma correctDrift_eq (isSafari : Bool) (s : MediaSync) (mn : MediaElementWrapper)
    (hd : s.disabled = false) (hn : 2 ≤ s.mediaElements.length)
    (hs : s.isSyncingSeeking = false)
    (hm : s.mainElement = some mn) (hp : mn.paused = false) :
    MediaSync.correctDrift isSafari s =
      (if 0 < ((s.otherTracks mn).filter (fun m =>
            if m.ended then false
            else |round ((m.currentTime - mn.currentTime) * 1000)| >
              DRIFT_CORRECTION_THRESHOLD isSafari)).length then
        ({ s with driftSamples := s.driftSamples ++
            [DriftRecord.correction mn.currentTime (s.mediaElements.map (fun m =>
              { id := m.id,
                correcting := (((s.otherTracks mn).filter (fun m =>
                    if m.ended then false
                    else |round ((m.currentTime - mn.currentTime) * 1000)| >
                      DRIFT_CORRECTION_THRESHOLD isSafari)).map
                  (fun d => d.id)).contains m.id }))] } : MediaSync).seekTracks
          (((s.otherTracks mn).filter (fun m =>
            if m.ended then false
            else |round ((m.currentTime - mn.currentTime) * 1000)| >
              DRIFT_CORRECTION_THRESHOLD isSafari)).map (fun d => d.id))
          mn.currentTime
      else (s, [])) := by
  unfold MediaSync.correctDrift
  have hlen : ¬ (s.mediaElements.length ≤ 1) := by omega
  rw [hm]
  simp only [hd, hs, hp, Bool.false_eq_true, if_false]
  rw [if_neg (by simp [hlen])]
  by_cases hc : 0 < ((s.otherTracks mn).filter (fun m =>
      if m.ended then false
      else |round ((m.currentTime - mn.currentTime) * 1000)| >
        DRIFT_CORRECTION_THRESHOLD isSafari)).length
  · simp only [if_pos hc]
  · simp only [if_neg hc]

lemma correctDrift_spec (isSafari : Bool) (s : MediaSync) (mn : MediaElementWrapper)
    (hd : s.disabled = false) (hn : 2 ≤ s.mediaElements.length)
    (hs : s.isSyncingSeeking = false)
    (hm : s.mainElement = some mn) (hp : mn.paused = false) :
    MediaSync.correctDrift isSafari s =
      (if 0 < ((s.otherTracks mn).filter (fun m =>
            if m.ended then false
            else |round ((m.currentTime - mn.currentTime) * 1000)| >
              DRIFT_CORRECTION_THRESHOLD isSafari)).length then
        (({ s with
            isSyncingSeeking := true,
            driftSampling := false, driftCorrection := false,
            mediaElements := (s.mediaElements.map
                (fun m => m.suppressEventType EventName.seeking)).map
              (fun m => if (((s.otherTracks mn).filter (fun m =>
                    if m.ended then false
                    else |round ((m.currentTime - mn.currentTime) * 1000)| >
                      DRIFT_CORRECTION_THRESHOLD isSafari)).map
                  (fun d => d.id)).contains m.id
                then m.setCurrentTime mn.currentTime else m),
            driftSamples := s.driftSamples ++
              [DriftRecord.correction mn.currentTime (s.mediaElements.map (fun m =>
                { id := m.id,
                  correcting := (((s.otherTracks mn).filter (fun m =>
                      if m.ended then false
                      else |round ((m.currentTime - mn.currentTime) * 1000)| >
                        DRIFT_CORRECTION_THRESHOLD isSafari)).map
                    (fun d => d.id)).contains m.id }))] } : MediaSync),
          (((s.otherTracks mn).filter (fun m =>
              if m.ended then false
              else |round ((m.currentTime - mn.currentTime) * 1000)| >
                DRIFT_CORRECTION_THRESHOLD isSafari)).map (fun d => d.id)).map
            (fun i => Effect.setTime i mn.currentTime))
      else (s, [])) := by
  rw [correctDrift_eq isSafari s mn hd hn hs hm hp]
  by_cases hc : 0 < ((s.otherTracks mn).filter (fun m =>
      if m.ended then false
      else |round ((m.currentTime - mn.currentTime) * 1000)| >
        DRIFT_CORRECTION_THRESHOLD isSafari)).length
  · rw [if_pos hc, if_pos hc]
    have hidsne : (((s.otherTracks mn).filter (fun m =>
        if m.ended then false
        else |round ((m.currentTime - mn.currentTime) * 1000)| >
          DRIFT_CORRECTION_THRESHOLD isSafari)).map (fun d => d.id)) ≠ [] := by
      have := List.length_pos.mp hc
      simpa using this
    rw [seekTracks_eq mn.currentTime hidsne (by exact hd)]
  · rw [if_neg hc, if_neg hc]

lemma contains_eq_true_of_mem {α : Type} [DecidableEq α] {l : List α} {a : α}
    (h : a ∈ l) : l.contains a = true := by
  induction l with
  | nil => cases h
  | cons x xs ih =>
    rcases List.mem_cons.mp h with rfl | h'
    · simp [List.contains_cons]
    · simp [List.contains_cons]
      exact Or.inr h'

lemma contains_eq_false_of_not_mem {α : Type} [DecidableEq α] {l : List α} {a : α}
    (h : a ∉ l) : l.contains a = false := by
  cases hc : l.contains a
  · rfl
  · exact absurd (by simpa using hc) h

/-- Claim C4: on a drift-correction tick with at least two tracks, the
main track playing and no seek sync in flight, the wrapper currentTime
setter is invoked with the main time exactly on the non-main tracks
that have not ended and whose rounded drift exceeds the threshold (30ms,
150ms on Safari), each at most once and nothing else — in particular an
ended track is never seeked — and exactly one DriftCorrection record,
flagging precisely the selected tracks, is appended exactly when that
selected set is non-empty. -/
theorem C4_drift_correction (isSafari : Bool) (s : MediaSync)
    (mn : MediaElementWrapper)
    (hd : s.disabled = false) (hn : 2 ≤ s.mediaElements.length)
    (hs : s.isSyncingSeeking = false)
    (hm : s.mainElement = some mn) (hp : mn.paused = false)
    (hnd : (s.mediaElements.map (fun m => m.id)).Nodup) :
    (∀ m ∈ s.mediaElements,
      (Effect.setTime m.id mn.currentTime ∈ (MediaSync.correctDrift isSafari s).2 ↔
        (m.id ≠ mn.id ∧ m.ended = false ∧
          DRIFT_CORRECTION_THRESHOLD isSafari <
            |round ((m.currentTime - mn.currentTime) * 1000)|))) ∧
    (∀ e ∈ (MediaSync.correctDrift isSafari s).2, ∃ m ∈ s.mediaElements,
      m.id ≠ mn.id ∧ m.ended = false ∧ e = Effect.setTime m.id mn.currentTime) ∧
    (∀ i : ℕ, ((MediaSync.correctDrift isSafari s).2.count
        (Effect.setTime i mn.currentTime)) ≤ 1) ∧
    ((∃ m ∈ s.mediaElements, m.id ≠ mn.id ∧ m.ended = false ∧
        DRIFT_CORRECTION_THRESHOLD isSafari <
          |round ((m.currentTime - mn.currentTime) * 1000)|) →
      (MediaSync.correctDrift isSafari s).1.driftSamples =
        s.driftSamples ++ [DriftRecord.correction mn.currentTime
          (s.mediaElements.map (fun m =>
            { id := m.id,
              correcting := decide (m.id ≠ mn.id ∧ m.ended = false ∧
                DRIFT_CORRECTION_THRESHOLD isSafari <
                  |round ((m.currentTime - mn.currentTime) * 1000)|) }))]) ∧
    ((¬ ∃ m ∈ s.mediaElements, m.id ≠ mn.id ∧ m.ended = false ∧
        DRIFT_CORRECTION_THRESHOLD isSafari <
          |round ((m.currentTime - mn.currentTime) * 1000)|) →
      MediaSync.correctDrift isSafari s = (s, [])) := by
  have hinj := nodup_map_id_inj hnd
  have hspec := correctDrift_spec isSafari s mn hd hn hs hm hp
  have hdm : ∀ m : MediaElementWrapper,
      (m ∈ (s.otherTracks mn).filter (fun m =>
        if m.ended then false
        else |round ((m.currentTime - mn.currentTime) * 1000)| >
          DRIFT_CORRECTION_THRESHOLD isSafari)) ↔
      (m ∈ s.mediaElements ∧ m.id ≠ mn.id ∧ m.ended = false ∧
        DRIFT_CORRECTION_THRESHOLD isSafari <
          |round ((m.currentTime - mn.currentTime) * 1000)|) := by
    intro m
    rw [List.mem_filter]
    unfold MediaSync.otherTracks
    rw [List.mem_filter]
    cases hme : m.ended <;> simp [hme, and_assoc]
  have hidm : ∀ m ∈ s.mediaElements,
      ((m.id ∈ ((s.otherTracks mn).filter (fun m =>
          if m.ended then false
          else |round ((m.currentTime - mn.currentTime) * 1000)| >
            DRIFT_CORRECTION_THRESHOLD isSafari)).map (fun d => d.id)) ↔
        (m.id ≠ mn.id ∧ m.ended = false ∧
          DRIFT_CORRECTION_THRESHOLD isSafari <
            |round ((m.currentTime - mn.currentTime) * 1000)|)) := by
    intro m hmm
    constructor
    · intro hi
      obtain ⟨m', hm', hids⟩ := List.mem_map.mp hi
      obtain ⟨hl', hne', hend', hthr'⟩ := (hdm m').mp hm'
      obtain rfl := hinj m' hl' m hmm hids
      exact ⟨hne', hend', hthr'⟩
    · intro hsel
      exact List.mem_map_of_mem _ ((hdm m).mpr ⟨hmm, hsel⟩)
  have hnodup2 : ((((s.otherTracks mn).filter (fun m =>
      if m.ended then false
      else |round ((m.currentTime - mn.currentTime) * 1000)| >
        DRIFT_CORRECTION_THRESHOLD isSafari))).map (fun m => m.id)).Nodup :=
    nodup_filter_map_id _ (nodup_filter_map_id _ hnd)
  by_cases hex : ∃ m ∈ s.mediaElements, m.id ≠ mn.id ∧ m.ended = false ∧
      DRIFT_CORRECTION_THRESHOLD isSafari <
        |round ((m.currentTime - mn.currentTime) * 1000)|
  · have hdne : ((s.otherTracks mn).filter (fun m =>
        if m.ended then false
        else |round ((m.currentTime - mn.currentTime) * 1000)| >
          DRIFT_CORRECTION_THRESHOLD isSafari)) ≠ [] := by
      obtain ⟨m, hmm, hsel⟩ := hex
      intro hnil
      have hmem := (hdm m).mpr ⟨hmm, hsel⟩
      rw [hnil] at hmem
      exact List.not_mem_nil m hmem
    have hc : 0 < ((s.otherTracks mn).filter (fun m =>
        if m.ended then false
        else |round ((m.currentTime - mn.currentTime) * 1000)| >
          DRIFT_CORRECTION_THRESHOLD isSafari)).length := List.length_pos.mpr hdne
    rw [hspec, if_pos hc]
    refine ⟨?_, ?_, ?_, ?_, ?_⟩
    · intro m hmm
      rw [← hidm m hmm]
      constructor
      · intro hi
        obtain ⟨i, hil, heq⟩ := List.mem_map.mp hi
        cases heq
        exact hil
      · intro hi
        exact List.mem_map_of_mem _ hi
    · intro e he
      obtain ⟨i, hil, rfl⟩ := List.mem_map.mp he
      obtain ⟨m', hm', rfl⟩ := List.mem_map.mp hil
      obtain ⟨hl', hne', hend', _⟩ := (hdm m').mp hm'
      exact ⟨m', hl', hne', hend', rfl⟩
    · intro i
      rw [count_map_injective (fun i => Effect.setTime i mn.currentTime)
        (fun a b hab => by cases hab; rfl)]
      exact List.nodup_iff_count_le_one.mp hnodup2 i
    · intro _
      simp only
      congr 2
      congr 1
      apply List.map_congr_left
      intro m hmm
      have hflag : ((((s.otherTracks mn).filter (fun m =>
          if m.ended then false
          else |round ((m.currentTime - mn.currentTime) * 1000)| >
            DRIFT_CORRECTION_THRESHOLD isSafari)).map
          (fun d => d.id)).contains m.id) =
          decide (m.id ≠ mn.id ∧ m.ended = false ∧
            DRIFT_CORRECTION_THRESHOLD isSafari <
              |round ((m.currentTime - mn.currentTime) * 1000)|) := by
        by_cases hsel : m.id ≠ mn.id ∧ m.ended = false ∧
            DRIFT_CORRECTION_THRESHOLD isSafari <
              |round ((m.currentTime - mn.currentTime) * 1000)|
        · rw [decide_eq_true hsel]
          exact contains_eq_true_of_mem ((hidm m hmm).mpr hsel)
        · rw [decide_eq_false hsel]
          exact contains_eq_false_of_not_mem (fun hmem => hsel ((hidm m hmm).mp hmem))
      rw [hflag]
    · intro hnex
      exact absurd hex hnex
  · have hdnil : ((s.otherTracks mn).filter (fun m =>
        if m.ended then false
        else |round ((m.currentTime - mn.currentTime) * 1000)| >
          DRIFT_CORRECTION_THRESHOLD isSafari)) = [] := by
      rw [List.eq_nil_iff_forall_not_mem]
      intro m hmem
      obtain ⟨hl', hsel⟩ := (hdm m).mp hmem
      exact hex ⟨m, hl', hsel⟩
    have hc : ¬ 0 < ((s.otherTracks mn).filter (fun m =>
        if m.ended then false
        else |round ((m.currentTime - mn.currentTime) * 1000)| >
          DRIFT_CORRECTION_THRESHOLD isSafari)).length := by
      rw [hdnil]
      simp
    rw [hspec, if_neg hc]
    refine ⟨?_, ?_, ?_, ?_, ?_⟩
    · intro m hmm
      constructor
      · intro hi
        exact absurd hi (List.not_mem_nil _)
      · intro hsel
        exact absurd ⟨m, hmm, hsel⟩ hex
    · intro e he
      exact absurd he (List.not_mem_nil _)
    · intro i
      simp
    · intro hcon
      exact absurd hcon hex
    · intro _
      rfl

/-- Witness for C4 on the three-track group: the tick seeks the
drifted trackSecond (15s behind the main track) to the main time and
never seeks the ended trackDone. -/
theorem C4_drift_correction_witness :
    Effect.setTime trackSecond.id trackMain.currentTime ∈
      (MediaSync.correctDrift false syncTrio).2 ∧
    Effect.setTime trackDone.id trackMain.currentTime ∉
      (MediaSync.correctDrift false syncTrio).2 :=
  ⟨((C4_drift_correction false syncTrio trackMain rfl (by decide) rfl rfl rfl
        (by decide)).1 trackSecond (List.mem_cons_of_mem _ (List.mem_cons_self _ _))).mpr
      ⟨by decide,
        by norm_num [MediaElementWrapper.ended, trackSecond, abs_sub_lt_iff],
        by norm_num [trackSecond, trackMain, DRIFT_CORRECTION_THRESHOLD, round_eq]⟩,
   fun hmem =>
    (by norm_num [MediaElementWrapper.ended, trackDone] :
        ¬ trackDone.ended = false)
      (((C4_drift_correction false syncTrio trackMain rfl (by decide) rfl rfl rfl
          (by decide)).1 trackDone
        (List.mem_cons_of_mem _ (List.mem_cons_of_mem _ (List.mem_cons_self _ _)))).mp
        hmem).2.1⟩
